import Mathlib

/-!
# Verified-publisher reconciliation (`internal/tracker/tracker.go`)

A shallow embedding of `SetVerifiedPublisherFlag` and of the collaborators it
talks to.  The repository manager is an interface whose implementation lives
behind the tracker, so it is embedded as a pair of transition functions over an
arbitrary world state `σ`; every call made through it is recorded, with its
arguments and its results, in a trace.  The repository `*r` is a cell that is
threaded through the function and handed back in the outcome, so that writes to
it (there are none) would be visible.

Conventions: a Go `error` result is `Option GoError` (`none` is `nil`); the
pointers `svc` and `r` are taken to be non-nil.
-/

namespace Hub

/-! ## Go errors -/

/-- Go error values: a leaf error carrying its message (`errors.New`), or the
wrapper built by `fmt.Errorf` for a format with a `%w` verb, which stores the
formatted message and the wrapped error. -/
inductive GoError where
  | errorString (s : String)
  | wrapError (msg : String) (err : GoError)
  deriving DecidableEq, Repr

/-- The `Error()` method: the message of an error. -/
def GoError.Error : GoError → String
  | .errorString s => s
  | .wrapError msg _ => msg

/-- The `Unwrap()` method: the wrapped error, if there is one. -/
def GoError.Unwrap : GoError → Option GoError
  | .errorString _ => none
  | .wrapError _ err => some err

/-- The chain inspected by `errors.Is`: `target` is `e` itself or is reached
from `e` by repeated `Unwrap`. -/
def GoError.Is : GoError → GoError → Bool
  | .errorString s, target => decide (GoError.errorString s = target)
  | .wrapError msg err, target =>
      decide (GoError.wrapError msg err = target) || GoError.Is err target

/-- `fmt.Errorf(pre + "%w", err)` for a non-nil `err`: the message is the text
before the verb followed by `err.Error()`, and the result wraps `err`. -/
def Errorf (pre : String) (err : GoError) : GoError :=
  .wrapError (pre ++ err.Error) err

/-! ## Data model -/

/-- Modelled from the spec: the declaration of `hub.Repository` is not part of
the sources at hand.  The spec lists an identity, a kind, a source location and
the verified-publisher flag; a name stands for the remaining descriptive
fields. -/
structure Repository where
  RepositoryID : String
  Name : String
  URL : String
  Kind : Int
  VerifiedPublisher : Bool
  deriving DecidableEq, Repr

/-- Modelled from the spec: the declaration of `hub.RepositoryMetadata` is not
part of the sources at hand.  The record carries the `RepositoryID` its
publisher claims. -/
structure RepositoryMetadata where
  RepositoryID : String
  deriving DecidableEq, Repr

/-- A `context.Context`, identified by a tag. -/
structure Context where
  id : Nat
  deriving DecidableEq, Repr

/-- A collaborator handle that `SetVerifiedPublisherFlag` never reads. -/
abbrev Handle := Nat

/-- Modelled from the spec: the declaration of `hub.RepositoryManager` is not
part of the sources at hand.  The two operations the tracker uses are
`GetMetadata(path) → (record, error)` and
`SetVerifiedPublisher(context, repositoryID, bool) → error`; each may read and
change the manager's world.  `GetMetadata` yields both results, as in Go: the
record is meaningful only when the error is `none`. -/
structure RepositoryManager (σ : Type) where
  GetMetadata : String → σ → (RepositoryMetadata × Option GoError) × σ
  SetVerifiedPublisher : Context → String → Bool → σ → Option GoError × σ

/-- The `Services` struct. -/
structure Services (σ : Type) where
  Ctx : Context
  Cfg : Handle
  Rc : Handle
  Rm : RepositoryManager σ
  Pm : Handle
  Il : Handle
  Is : Handle
  Ec : Handle
  Hg : Handle

/-- One call made through the repository manager, with its arguments and what
it returned. -/
inductive Event where
  | GetMetadata (mdFile : String) (md : RepositoryMetadata) (err : Option GoError)
  | SetVerifiedPublisher (ctx : Context) (repositoryID : String)
      (verifiedPublisher : Bool) (err : Option GoError)
  deriving DecidableEq, Repr

/-- What is observable once `SetVerifiedPublisherFlag` has returned: the error
it returned, the manager's world, the calls it made in order, and the contents
of `*r`. -/
structure Outcome (σ : Type) where
  ret : Option GoError
  world : σ
  trace : List Event
  repo : Repository

/-! ## The function -/

/-- `SetVerifiedPublisherFlag(svc, r, mdFile)`, run from the world `w`. -/
def SetVerifiedPublisherFlag {σ : Type} (svc : Services σ) (r : Repository)
    (mdFile : String) (w : σ) : Outcome σ :=
  -- var verifiedPublisher bool
  let verifiedPublisher₀ : Bool := false
  -- md, err := svc.Rm.GetMetadata(mdFile)
  let g := svc.Rm.GetMetadata mdFile w
  let md := g.1.1
  let err := g.1.2
  let w₁ := g.2
  let ev₁ := Event.GetMetadata mdFile md err
  -- if err == nil { if r.RepositoryID == md.RepositoryID { verifiedPublisher = true } }
  let verifiedPublisher : Bool :=
    match err with
    | none => if r.RepositoryID = md.RepositoryID then true else verifiedPublisher₀
    | some _ => verifiedPublisher₀
  -- if r.VerifiedPublisher != verifiedPublisher {
  if r.VerifiedPublisher ≠ verifiedPublisher then
    -- err := svc.Rm.SetVerifiedPublisher(svc.Ctx, r.RepositoryID, verifiedPublisher)
    let s := svc.Rm.SetVerifiedPublisher svc.Ctx r.RepositoryID verifiedPublisher w₁
    let ev₂ := Event.SetVerifiedPublisher svc.Ctx r.RepositoryID verifiedPublisher s.1
    match s.1 with
    | some e =>
        -- return fmt.Errorf("error setting verified publisher flag: %w", err)
        { ret := some (Errorf "error setting verified publisher flag: " e)
          world := s.2, trace := [ev₁, ev₂], repo := r }
    | none =>
        -- return nil
        { ret := none, world := s.2, trace := [ev₁, ev₂], repo := r }
  else
    -- return nil
    { ret := none, world := w₁, trace := [ev₁], repo := r }

/-! ## Observations on outcomes -/

/-- The flag the reconciliation computes from a `GetMetadata` result: the fetch
succeeded and the record's `RepositoryID` equals the repository's. -/
def computedFlag (r : Repository) (md : RepositoryMetadata) (err : Option GoError) : Bool :=
  err.isNone && decide (md.RepositoryID = r.RepositoryID)

/-- The `SetVerifiedPublisher` calls of a trace: arguments and returned error. -/
def setCalls : List Event → List (Context × String × Bool × Option GoError)
  | [] => []
  | .GetMetadata _ _ _ :: t => setCalls t
  | .SetVerifiedPublisher ctx id v e :: t => (ctx, id, v, e) :: setCalls t

/-- Every `SetVerifiedPublisher` call of the trace returned `nil`. -/
def updatesSucceed (t : List Event) : Bool :=
  (setCalls t).all fun c => c.2.2.2.isNone

/-- The verified-publisher flag stored for repository `repositoryID` after the
calls of a trace, starting from `stored`: a successful `SetVerifiedPublisher`
call for that repository writes its value, anything else leaves the flag. -/
def flagAfter (stored : Bool) (repositoryID : String) : List Event → Bool
  | [] => stored
  | .GetMetadata _ _ _ :: t => flagAfter stored repositoryID t
  | .SetVerifiedPublisher _ id v e :: t =>
      flagAfter (if id = repositoryID ∧ e = none then v else stored) repositoryID t

/-! ## Concrete managers used to exercise the embedding -/

/-- A manager over the world `Unit` whose answers are fixed: `GetMetadata`
always returns `(md, gerr)` and `SetVerifiedPublisher` always returns `serr`. -/
def constRm (md : RepositoryMetadata) (gerr serr : Option GoError) : RepositoryManager Unit where
  GetMetadata := fun _ w => ((md, gerr), w)
  SetVerifiedPublisher := fun _ _ _ w => (serr, w)

/-- Services around `constRm`, with context tag 7. -/
def constSvc (md : RepositoryMetadata) (gerr serr : Option GoError) : Services Unit where
  Ctx := ⟨7⟩
  Cfg := 0
  Rc := 0
  Rm := constRm md gerr serr
  Pm := 0
  Il := 0
  Is := 0
  Ec := 0
  Hg := 0

/-- A repository with identity `id` and stored flag `vp`. -/
def repoOf (id : String) (vp : Bool) : Repository :=
  { RepositoryID := id, Name := "repo", URL := "https://example.org/repo", Kind := 0,
    VerifiedPublisher := vp }

/-- A manager whose world is the log of the flags written so far:
`GetMetadata` always returns `(md, gerr)` and leaves the log alone,
`SetVerifiedPublisher` appends `(repositoryID, flag)` and succeeds. -/
def logRm (md : RepositoryMetadata) (gerr : Option GoError) :
    RepositoryManager (List (String × Bool)) where
  GetMetadata := fun _ w => ((md, gerr), w)
  SetVerifiedPublisher := fun _ id v w => (none, w ++ [(id, v)])

/-- Services around `logRm`, with context tag 7. -/
def logSvc (md : RepositoryMetadata) (gerr : Option GoError) : Services (List (String × Bool)) where
  Ctx := ⟨7⟩
  Cfg := 0
  Rc := 0
  Rm := logRm md gerr
  Pm := 0
  Il := 0
  Is := 0
  Ec := 0
  Hg := 0

/-- The services `svc` with the fetch made to fail: `GetMetadata` returns the
record `md` together with the error `ge`, and moves the world as before. -/
def withFetchError {σ : Type} (svc : Services σ) (md : RepositoryMetadata) (ge : GoError) :
    Services σ :=
  { svc with
    Rm := { svc.Rm with
      GetMetadata := fun path w => ((md, some ge), (svc.Rm.GetMetadata path w).2) } }

/-- The sentinel error used in the examples. -/
def errFake : GoError := .errorString "fake error for tests"

/-! ## How a run unfolds -/

/-- The value the function holds in `verifiedPublisher` after the fetch is the
computed flag of the fetch result. -/
theorem local_flag_eq (r : Repository) (md : RepositoryMetadata) (err : Option GoError) :
    (match err with
      | none => if r.RepositoryID = md.RepositoryID then true else false
      | some _ => false) = computedFlag r md err := by
  cases err with
  | none =>
      by_cases h : r.RepositoryID = md.RepositoryID
      · simp [computedFlag, h]
      · have h' : ¬ md.RepositoryID = r.RepositoryID := fun e => h e.symm
        simp [computedFlag, h, h']
  | some e => simp [computedFlag]

/-- When the computed flag agrees with the flag of `r`, the run is the fetch
alone. -/
theorem run_of_agree {σ : Type} (svc : Services σ) (r : Repository) (mdFile : String) (w : σ)
    (h : computedFlag r (svc.Rm.GetMetadata mdFile w).1.1 (svc.Rm.GetMetadata mdFile w).1.2
      = r.VerifiedPublisher) :
    SetVerifiedPublisherFlag svc r mdFile w =
      { ret := none
        world := (svc.Rm.GetMetadata mdFile w).2
        trace := [Event.GetMetadata mdFile (svc.Rm.GetMetadata mdFile w).1.1
          (svc.Rm.GetMetadata mdFile w).1.2]
        repo := r } := by
  unfold SetVerifiedPublisherFlag
  simp only [local_flag_eq, h, ne_eq, not_true_eq_false, if_false]

/-- When the computed flag differs from the flag of `r`, the run is the fetch
followed by one update carrying the computed flag; the returned error is the
update's error wrapped by `Errorf`. -/
theorem run_of_differ {σ : Type} (svc : Services σ) (r : Repository) (mdFile : String) (w : σ)
    (h : computedFlag r (svc.Rm.GetMetadata mdFile w).1.1 (svc.Rm.GetMetadata mdFile w).1.2
      ≠ r.VerifiedPublisher) :
    SetVerifiedPublisherFlag svc r mdFile w =
      { ret := (svc.Rm.SetVerifiedPublisher svc.Ctx r.RepositoryID
            (computedFlag r (svc.Rm.GetMetadata mdFile w).1.1 (svc.Rm.GetMetadata mdFile w).1.2)
            (svc.Rm.GetMetadata mdFile w).2).1.map (Errorf "error setting verified publisher flag: ")
        world := (svc.Rm.SetVerifiedPublisher svc.Ctx r.RepositoryID
            (computedFlag r (svc.Rm.GetMetadata mdFile w).1.1 (svc.Rm.GetMetadata mdFile w).1.2)
            (svc.Rm.GetMetadata mdFile w).2).2
        trace := [Event.GetMetadata mdFile (svc.Rm.GetMetadata mdFile w).1.1
            (svc.Rm.GetMetadata mdFile w).1.2,
          Event.SetVerifiedPublisher svc.Ctx r.RepositoryID
            (computedFlag r (svc.Rm.GetMetadata mdFile w).1.1 (svc.Rm.GetMetadata mdFile w).1.2)
            (svc.Rm.SetVerifiedPublisher svc.Ctx r.RepositoryID
              (computedFlag r (svc.Rm.GetMetadata mdFile w).1.1 (svc.Rm.GetMetadata mdFile w).1.2)
              (svc.Rm.GetMetadata mdFile w).2).1]
        repo := r } := by
  have h' : r.VerifiedPublisher ≠
      computedFlag r (svc.Rm.GetMetadata mdFile w).1.1 (svc.Rm.GetMetadata mdFile w).1.2 :=
    fun e => h e.symm
  unfold SetVerifiedPublisherFlag
  simp only [local_flag_eq, h', ne_eq, not_false_eq_true, if_true]
  cases hs : (svc.Rm.SetVerifiedPublisher svc.Ctx r.RepositoryID
            (computedFlag r (svc.Rm.GetMetadata mdFile w).1.1 (svc.Rm.GetMetadata mdFile w).1.2)
            (svc.Rm.GetMetadata mdFile w).2).1 <;> simp

/-- A Boolean differing from `b` is the negation of `b`. -/
theorem eq_not_of_ne {a b : Bool} (h : a ≠ b) : a = !b := by
  cases a <;> cases b <;> simp_all

/-- The computed flag depends on the repository only through its identity. -/
theorem computedFlag_congr {r r' : Repository} (hid : r'.RepositoryID = r.RepositoryID)
    (md : RepositoryMetadata) (err : Option GoError) :
    computedFlag r' md err = computedFlag r md err := by
  simp [computedFlag, hid]

/-- After a pass whose updates succeeded, the stored flag is the computed flag. -/
theorem flagAfter_eq_computed {σ : Type} (svc : Services σ) (r : Repository) (mdFile : String)
    (w : σ) (hok : updatesSucceed (SetVerifiedPublisherFlag svc r mdFile w).trace = true) :
    flagAfter r.VerifiedPublisher r.RepositoryID (SetVerifiedPublisherFlag svc r mdFile w).trace
      = computedFlag r (svc.Rm.GetMetadata mdFile w).1.1 (svc.Rm.GetMetadata mdFile w).1.2 := by
  by_cases h : computedFlag r (svc.Rm.GetMetadata mdFile w).1.1
      (svc.Rm.GetMetadata mdFile w).1.2 = r.VerifiedPublisher
  · rw [run_of_agree svc r mdFile w h]
    simp [flagAfter, h]
  · rw [run_of_differ svc r mdFile w h] at hok ⊢
    simp only [updatesSucceed, setCalls, List.all_cons, List.all_nil, Bool.and_true,
      Option.isNone_iff_eq_none] at hok
    simp [flagAfter, hok]

/-- A pass that returned nil had all its updates succeed. -/
theorem updatesSucceed_of_ret_none {σ : Type} (svc : Services σ) (r : Repository)
    (mdFile : String) (w : σ) (hret : (SetVerifiedPublisherFlag svc r mdFile w).ret = none) :
    updatesSucceed (SetVerifiedPublisherFlag svc r mdFile w).trace = true := by
  by_cases h : computedFlag r (svc.Rm.GetMetadata mdFile w).1.1
      (svc.Rm.GetMetadata mdFile w).1.2 = r.VerifiedPublisher
  · rw [run_of_agree svc r mdFile w h]
    simp [updatesSucceed, setCalls]
  · rw [run_of_differ svc r mdFile w h] at hret ⊢
    simp only [Option.map_eq_none'] at hret
    simp [updatesSucceed, setCalls, hret]

/-- A pass over the re-read repository, fed the same fetch result as the pass
before it, finds the computed flag already stored. -/
theorem reread_agrees {σ : Type} (svc : Services σ) (r r' : Repository) (mdFile : String)
    (w w' : σ)
    (hsame : (svc.Rm.GetMetadata mdFile w').1 = (svc.Rm.GetMetadata mdFile w).1)
    (hok : updatesSucceed (SetVerifiedPublisherFlag svc r mdFile w).trace = true)
    (hid : r'.RepositoryID = r.RepositoryID)
    (hvp : r'.VerifiedPublisher =
      flagAfter r.VerifiedPublisher r.RepositoryID (SetVerifiedPublisherFlag svc r mdFile w).trace) :
    computedFlag r' (svc.Rm.GetMetadata mdFile w').1.1 (svc.Rm.GetMetadata mdFile w').1.2
      = r'.VerifiedPublisher := by
  rw [hvp, flagAfter_eq_computed svc r mdFile w hok, hsame]
  exact computedFlag_congr hid _ _

/-! ## The flag after a pass -/

/-- C1: when the metadata fetch returns an error, or returns a record whose
`RepositoryID` differs from that of `r`, and every `SetVerifiedPublisher` call
issued succeeds, the verified-publisher flag stored for `r` after
`SetVerifiedPublisherFlag` returns is false. -/
theorem flag_false_of_no_valid_claim {σ : Type} (svc : Services σ) (r : Repository)
    (mdFile : String) (w : σ)
    (hmd : (svc.Rm.GetMetadata mdFile w).1.2 ≠ none ∨
      (svc.Rm.GetMetadata mdFile w).1.1.RepositoryID ≠ r.RepositoryID)
    (hok : updatesSucceed (SetVerifiedPublisherFlag svc r mdFile w).trace = true) :
    flagAfter r.VerifiedPublisher r.RepositoryID
      (SetVerifiedPublisherFlag svc r mdFile w).trace = false := by
  have hc : computedFlag r (svc.Rm.GetMetadata mdFile w).1.1 (svc.Rm.GetMetadata mdFile w).1.2
      = false := by
    rcases hmd with h | h
    · cases he : (svc.Rm.GetMetadata mdFile w).1.2 with
      | none => exact absurd he h
      | some e => simp [computedFlag]
    · simp [computedFlag, h]
  by_cases hv : r.VerifiedPublisher = false
  · rw [run_of_agree svc r mdFile w (by rw [hc, hv])]
    simp [flagAfter, hv]
  · have hd : computedFlag r (svc.Rm.GetMetadata mdFile w).1.1
        (svc.Rm.GetMetadata mdFile w).1.2 ≠ r.VerifiedPublisher := by
      rw [hc]; exact fun e => hv e.symm
    rw [run_of_differ svc r mdFile w hd] at hok ⊢
    simp only [updatesSucceed, setCalls, List.all_cons, List.all_nil, Bool.and_true,
      Option.isNone_iff_eq_none] at hok
    rw [hc] at hok
    simp [flagAfter, hok, hc]

/-- C1, exercised: the fetch fails, `r` is flagged, the update succeeds. -/
theorem flag_false_of_no_valid_claim_witness :
    flagAfter (repoOf "a" true).VerifiedPublisher (repoOf "a" true).RepositoryID
      (SetVerifiedPublisherFlag (logSvc ⟨""⟩ (some errFake)) (repoOf "a" true)
        "artifacthub-repo.yml" []).trace = false :=
  flag_false_of_no_valid_claim (logSvc ⟨""⟩ (some errFake)) (repoOf "a" true)
    "artifacthub-repo.yml" [] (Or.inl (by simp [logSvc, logRm])) (by decide)

/-- C2: when the metadata fetch succeeds with a record whose `RepositoryID`
equals that of `r`, and every `SetVerifiedPublisher` call issued succeeds, the
verified-publisher flag stored for `r` after `SetVerifiedPublisherFlag` returns
is true. -/
theorem flag_true_of_valid_claim {σ : Type} (svc : Services σ) (r : Repository)
    (mdFile : String) (w : σ)
    (herr : (svc.Rm.GetMetadata mdFile w).1.2 = none)
    (hid : (svc.Rm.GetMetadata mdFile w).1.1.RepositoryID = r.RepositoryID)
    (hok : updatesSucceed (SetVerifiedPublisherFlag svc r mdFile w).trace = true) :
    flagAfter r.VerifiedPublisher r.RepositoryID
      (SetVerifiedPublisherFlag svc r mdFile w).trace = true := by
  have hc : computedFlag r (svc.Rm.GetMetadata mdFile w).1.1 (svc.Rm.GetMetadata mdFile w).1.2
      = true := by
    simp [computedFlag, herr, hid]
  by_cases hv : r.VerifiedPublisher = true
  · rw [run_of_agree svc r mdFile w (by rw [hc, hv])]
    simp [flagAfter, hv]
  · have hd : computedFlag r (svc.Rm.GetMetadata mdFile w).1.1
        (svc.Rm.GetMetadata mdFile w).1.2 ≠ r.VerifiedPublisher := by
      rw [hc]; exact fun e => hv e.symm
    rw [run_of_differ svc r mdFile w hd] at hok ⊢
    simp only [updatesSucceed, setCalls, List.all_cons, List.all_nil, Bool.and_true,
      Option.isNone_iff_eq_none] at hok
    rw [hc] at hok
    simp [flagAfter, hok, hc]

/-- C2, exercised: the record names `r`, which is not yet flagged. -/
theorem flag_true_of_valid_claim_witness :
    flagAfter (repoOf "a" false).VerifiedPublisher (repoOf "a" false).RepositoryID
      (SetVerifiedPublisherFlag (logSvc ⟨"a"⟩ none) (repoOf "a" false)
        "artifacthub-repo.yml" []).trace = true :=
  flag_true_of_valid_claim (logSvc ⟨"a"⟩ none) (repoOf "a" false)
    "artifacthub-repo.yml" [] (by simp [logSvc, logRm]) (by decide) (by decide)

/-! ## Which calls are issued -/

/-- C3 (write-avoidance): when the computed flag already equals the flag of
`r`, `SetVerifiedPublisherFlag` issues no `SetVerifiedPublisher` call, its only
call is the fetch, the world is the one the fetch left, and it returns nil. -/
theorem no_update_when_flag_agrees {σ : Type} (svc : Services σ) (r : Repository)
    (mdFile : String) (w : σ)
    (h : computedFlag r (svc.Rm.GetMetadata mdFile w).1.1 (svc.Rm.GetMetadata mdFile w).1.2
      = r.VerifiedPublisher) :
    setCalls (SetVerifiedPublisherFlag svc r mdFile w).trace = [] ∧
    (SetVerifiedPublisherFlag svc r mdFile w).trace =
      [Event.GetMetadata mdFile (svc.Rm.GetMetadata mdFile w).1.1
        (svc.Rm.GetMetadata mdFile w).1.2] ∧
    (SetVerifiedPublisherFlag svc r mdFile w).world = (svc.Rm.GetMetadata mdFile w).2 ∧
    (SetVerifiedPublisherFlag svc r mdFile w).ret = none := by
  rw [run_of_agree svc r mdFile w h]
  simp [setCalls]

/-- C3, exercised: no metadata file and the flag never set; the log of writes
stays empty. -/
theorem no_update_when_flag_agrees_witness :
    setCalls (SetVerifiedPublisherFlag (logSvc ⟨""⟩ (some errFake)) (repoOf "a" false)
      "artifacthub-repo.yml" []).trace = [] ∧
    (SetVerifiedPublisherFlag (logSvc ⟨""⟩ (some errFake)) (repoOf "a" false)
      "artifacthub-repo.yml" []).trace =
      [Event.GetMetadata "artifacthub-repo.yml" ⟨""⟩ (some errFake)] ∧
    (SetVerifiedPublisherFlag (logSvc ⟨""⟩ (some errFake)) (repoOf "a" false)
      "artifacthub-repo.yml" []).world = [] ∧
    (SetVerifiedPublisherFlag (logSvc ⟨""⟩ (some errFake)) (repoOf "a" false)
      "artifacthub-repo.yml" []).ret = none :=
  no_update_when_flag_agrees (logSvc ⟨""⟩ (some errFake)) (repoOf "a" false)
    "artifacthub-repo.yml" [] (by decide)

/-- C4: when the computed flag differs from the flag of `r`,
`SetVerifiedPublisherFlag` issues exactly one `SetVerifiedPublisher` call; its
arguments are `svc.Ctx`, `r.RepositoryID` and the computed flag, which is the
negation of `r.VerifiedPublisher`; the call is made in the world the fetch left
and its result is the one recorded. -/
theorem one_update_when_flag_differs {σ : Type} (svc : Services σ) (r : Repository)
    (mdFile : String) (w : σ)
    (h : computedFlag r (svc.Rm.GetMetadata mdFile w).1.1 (svc.Rm.GetMetadata mdFile w).1.2
      ≠ r.VerifiedPublisher) :
    setCalls (SetVerifiedPublisherFlag svc r mdFile w).trace =
      [(svc.Ctx, r.RepositoryID,
        computedFlag r (svc.Rm.GetMetadata mdFile w).1.1 (svc.Rm.GetMetadata mdFile w).1.2,
        (svc.Rm.SetVerifiedPublisher svc.Ctx r.RepositoryID (!r.VerifiedPublisher)
          (svc.Rm.GetMetadata mdFile w).2).1)] ∧
    computedFlag r (svc.Rm.GetMetadata mdFile w).1.1 (svc.Rm.GetMetadata mdFile w).1.2
      = (!r.VerifiedPublisher) := by
  have hn := eq_not_of_ne h
  rw [run_of_differ svc r mdFile w h]
  refine ⟨?_, hn⟩
  simp only [setCalls]
  rw [hn]

/-- C4, exercised: the record names `r`, which is not yet flagged; one call
carrying `true` is issued. -/
theorem one_update_when_flag_differs_witness :
    setCalls (SetVerifiedPublisherFlag (logSvc ⟨"a"⟩ none) (repoOf "a" false)
      "artifacthub-repo.yml" []).trace = [(⟨7⟩, "a", true, none)] :=
  (one_update_when_flag_differs (logSvc ⟨"a"⟩ none) (repoOf "a" false)
    "artifacthub-repo.yml" [] (by decide)).1

/-! ## The returned error -/

/-- C5: `SetVerifiedPublisherFlag` returns a non-nil error exactly when it
issued a `SetVerifiedPublisher` call that returned an error; the error returned
then wraps that underlying error (`Unwrap` gives it back, `errors.Is` finds it)
and its message is "error setting verified publisher flag: " followed by the
underlying error's message. -/
theorem error_iff_update_failed {σ : Type} (svc : Services σ) (r : Repository)
    (mdFile : String) (w : σ) :
    ((SetVerifiedPublisherFlag svc r mdFile w).ret ≠ none ↔
      ∃ c ∈ setCalls (SetVerifiedPublisherFlag svc r mdFile w).trace, c.2.2.2 ≠ none) ∧
    ∀ e', (SetVerifiedPublisherFlag svc r mdFile w).ret = some e' →
      ∃ e, (∃ c ∈ setCalls (SetVerifiedPublisherFlag svc r mdFile w).trace, c.2.2.2 = some e) ∧
        e'.Unwrap = some e ∧ e'.Is e = true ∧
        e'.Error = "error setting verified publisher flag: " ++ e.Error := by
  by_cases h : computedFlag r (svc.Rm.GetMetadata mdFile w).1.1
      (svc.Rm.GetMetadata mdFile w).1.2 = r.VerifiedPublisher
  · rw [run_of_agree svc r mdFile w h]
    simp [setCalls]
  · rw [run_of_differ svc r mdFile w h]
    cases hs : (svc.Rm.SetVerifiedPublisher svc.Ctx r.RepositoryID
        (computedFlag r (svc.Rm.GetMetadata mdFile w).1.1 (svc.Rm.GetMetadata mdFile w).1.2)
        (svc.Rm.GetMetadata mdFile w).2).1 with
    | none => simp [setCalls]
    | some e =>
        refine ⟨by simp [setCalls], ?_⟩
        intro e' he'
        simp only [Option.map_some', Option.some.injEq] at he'
        subst he'
        refine ⟨e, by simp [setCalls], rfl, ?_, rfl⟩
        cases e <;> simp [Errorf, GoError.Is]

/-- C6, as written, fails in its last part: the fetch fails with the sentinel
error, `r` is flagged, so the update is issued, and the update fails with that
same sentinel; the error returned then wraps the very error `GetMetadata`
returned. -/
theorem fetch_error_found_in_returned_error :
    ((constSvc ⟨""⟩ (some errFake) (some errFake)).Rm.GetMetadata
      "artifacthub-repo.yml" ()).1.2 = some errFake ∧
    (SetVerifiedPublisherFlag (constSvc ⟨""⟩ (some errFake) (some errFake)) (repoOf "a" true)
      "artifacthub-repo.yml" ()).ret =
      some (.wrapError "error setting verified publisher flag: fake error for tests" errFake) ∧
    GoError.Unwrap
      (.wrapError "error setting verified publisher flag: fake error for tests" errFake)
      = some errFake ∧
    GoError.Is
      (.wrapError "error setting verified publisher flag: fake error for tests" errFake)
      errFake = true := by
  decide

/-- C6, amended: a failed metadata fetch is not an error.  When `GetMetadata`
returns an error: for `r` not flagged, `SetVerifiedPublisherFlag` returns nil
and issues no `SetVerifiedPublisher` call; for every `r`, the value returned is
nil, or it is the error returned by the one `SetVerifiedPublisher` call issued,
wrapped by `Errorf` (so the fetch error is found in it only when that call
returned it); and making the fetch fail with any other error and record leaves
the value returned and the updates issued unchanged. -/
theorem fetch_error_is_not_an_error {σ : Type} (svc : Services σ) (r : Repository)
    (mdFile : String) (w : σ) (ge : GoError)
    (hg : (svc.Rm.GetMetadata mdFile w).1.2 = some ge) :
    (r.VerifiedPublisher = false →
      (SetVerifiedPublisherFlag svc r mdFile w).ret = none ∧
      setCalls (SetVerifiedPublisherFlag svc r mdFile w).trace = []) ∧
    ((SetVerifiedPublisherFlag svc r mdFile w).ret = none ∨
      ∃ e, setCalls (SetVerifiedPublisherFlag svc r mdFile w).trace
          = [(svc.Ctx, r.RepositoryID, false, some e)] ∧
        (SetVerifiedPublisherFlag svc r mdFile w).ret
          = some (Errorf "error setting verified publisher flag: " e)) ∧
    ∀ (md' : RepositoryMetadata) (ge' : GoError),
      (SetVerifiedPublisherFlag (withFetchError svc md' ge') r mdFile w).ret
        = (SetVerifiedPublisherFlag svc r mdFile w).ret ∧
      setCalls (SetVerifiedPublisherFlag (withFetchError svc md' ge') r mdFile w).trace
        = setCalls (SetVerifiedPublisherFlag svc r mdFile w).trace := by
  have hc : computedFlag r (svc.Rm.GetMetadata mdFile w).1.1 (svc.Rm.GetMetadata mdFile w).1.2
      = false := by
    simp [computedFlag, hg]
  have hc' : ∀ (md' : RepositoryMetadata) (ge' : GoError),
      computedFlag r ((withFetchError svc md' ge').Rm.GetMetadata mdFile w).1.1
        ((withFetchError svc md' ge').Rm.GetMetadata mdFile w).1.2 = false := by
    intro md' ge'
    simp [computedFlag, withFetchError]
  by_cases hv : r.VerifiedPublisher = false
  · have ha : computedFlag r (svc.Rm.GetMetadata mdFile w).1.1
        (svc.Rm.GetMetadata mdFile w).1.2 = r.VerifiedPublisher := by rw [hc, hv]
    rw [run_of_agree svc r mdFile w ha]
    refine ⟨fun _ => by simp [setCalls], Or.inl rfl, ?_⟩
    intro md' ge'
    rw [run_of_agree (withFetchError svc md' ge') r mdFile w (by rw [hc' md' ge', hv])]
    simp [setCalls]
  · have hd : computedFlag r (svc.Rm.GetMetadata mdFile w).1.1
        (svc.Rm.GetMetadata mdFile w).1.2 ≠ r.VerifiedPublisher := by
      rw [hc]; exact fun e => hv e.symm
    have hd' : ∀ (md' : RepositoryMetadata) (ge' : GoError),
        computedFlag r ((withFetchError svc md' ge').Rm.GetMetadata mdFile w).1.1
          ((withFetchError svc md' ge').Rm.GetMetadata mdFile w).1.2 ≠ r.VerifiedPublisher := by
      intro md' ge'
      rw [hc' md' ge']; exact fun e => hv e.symm
    rw [run_of_differ svc r mdFile w hd, hc]
    refine ⟨fun h => absurd h hv, ?_, ?_⟩
    · cases hs : (svc.Rm.SetVerifiedPublisher svc.Ctx r.RepositoryID false
          (svc.Rm.GetMetadata mdFile w).2).1 with
      | none => exact Or.inl rfl
      | some e => exact Or.inr ⟨e, by simp [setCalls], rfl⟩
    · intro md' ge'
      rw [run_of_differ (withFetchError svc md' ge') r mdFile w (hd' md' ge'), hc' md' ge']
      simp [setCalls, withFetchError]

/-- C6 amended, exercised: no metadata file and the flag not set; nil is
returned and the log of writes stays empty. -/
theorem fetch_error_is_not_an_error_witness :
    ((logSvc ⟨""⟩ (some errFake)).Rm.GetMetadata "artifacthub-repo.yml" []).1.2
      = some errFake ∧
    (SetVerifiedPublisherFlag (logSvc ⟨""⟩ (some errFake)) (repoOf "a" false)
      "artifacthub-repo.yml" []).ret = none ∧
    setCalls (SetVerifiedPublisherFlag (logSvc ⟨""⟩ (some errFake)) (repoOf "a" false)
      "artifacthub-repo.yml" []).trace = [] :=
  ⟨by decide,
    (fetch_error_is_not_an_error (logSvc ⟨""⟩ (some errFake)) (repoOf "a" false)
      "artifacthub-repo.yml" [] errFake (by decide)).1 (by decide)⟩

/-! ## The repository value -/

/-- C8: `SetVerifiedPublisherFlag` leaves the repository value it is given as
it was, whatever the outcome: `RepositoryID`, `VerifiedPublisher` and every
other field are unchanged.  The world moves only through the manager: it is the
world the fetch left, or the world left by the `SetVerifiedPublisher` call made
there; and the stored flag differs from the flag of `r` only if a
`SetVerifiedPublisher` call was issued. -/
theorem repository_not_mutated {σ : Type} (svc : Services σ) (r : Repository)
    (mdFile : String) (w : σ) :
    (SetVerifiedPublisherFlag svc r mdFile w).repo = r ∧
    (SetVerifiedPublisherFlag svc r mdFile w).repo.RepositoryID = r.RepositoryID ∧
    (SetVerifiedPublisherFlag svc r mdFile w).repo.VerifiedPublisher = r.VerifiedPublisher ∧
    ((SetVerifiedPublisherFlag svc r mdFile w).world = (svc.Rm.GetMetadata mdFile w).2 ∨
      (SetVerifiedPublisherFlag svc r mdFile w).world =
        (svc.Rm.SetVerifiedPublisher svc.Ctx r.RepositoryID (!r.VerifiedPublisher)
          (svc.Rm.GetMetadata mdFile w).2).2) ∧
    (flagAfter r.VerifiedPublisher r.RepositoryID (SetVerifiedPublisherFlag svc r mdFile w).trace
        ≠ r.VerifiedPublisher →
      setCalls (SetVerifiedPublisherFlag svc r mdFile w).trace ≠ []) := by
  by_cases h : computedFlag r (svc.Rm.GetMetadata mdFile w).1.1
      (svc.Rm.GetMetadata mdFile w).1.2 = r.VerifiedPublisher
  · rw [run_of_agree svc r mdFile w h]
    simp [flagAfter]
  · rw [run_of_differ svc r mdFile w h, eq_not_of_ne h]
    simp [setCalls]

/-! ## Two passes in a row -/

/-- C10 (convergence on the stored state): if a first call returns nil and the
repository is then re-read, so that its flag is the one stored after the first
call, a second call fed the same fetch result issues no `SetVerifiedPublisher`
call and returns nil. -/
theorem second_pass_converges {σ : Type} (svc : Services σ) (r r' : Repository)
    (mdFile : String) (w : σ)
    (hret : (SetVerifiedPublisherFlag svc r mdFile w).ret = none)
    (hid : r'.RepositoryID = r.RepositoryID)
    (hvp : r'.VerifiedPublisher =
      flagAfter r.VerifiedPublisher r.RepositoryID (SetVerifiedPublisherFlag svc r mdFile w).trace)
    (hsame : (svc.Rm.GetMetadata mdFile (SetVerifiedPublisherFlag svc r mdFile w).world).1
      = (svc.Rm.GetMetadata mdFile w).1) :
    setCalls (SetVerifiedPublisherFlag svc r' mdFile
      (SetVerifiedPublisherFlag svc r mdFile w).world).trace = [] ∧
    (SetVerifiedPublisherFlag svc r' mdFile
      (SetVerifiedPublisherFlag svc r mdFile w).world).ret = none := by
  have hok := updatesSucceed_of_ret_none svc r mdFile w hret
  have h := reread_agrees svc r r' mdFile w _ hsame hok hid hvp
  rw [run_of_agree svc r' mdFile _ h]
  simp [setCalls]

/-- C10, exercised: the first pass flags the repository, the second finds it
flagged and writes nothing. -/
theorem second_pass_converges_witness :
    (SetVerifiedPublisherFlag (logSvc ⟨"a"⟩ none) (repoOf "a" false)
      "artifacthub-repo.yml" []).world = [("a", true)] ∧
    setCalls (SetVerifiedPublisherFlag (logSvc ⟨"a"⟩ none) (repoOf "a" true) "artifacthub-repo.yml"
      (SetVerifiedPublisherFlag (logSvc ⟨"a"⟩ none) (repoOf "a" false)
        "artifacthub-repo.yml" []).world).trace = [] ∧
    (SetVerifiedPublisherFlag (logSvc ⟨"a"⟩ none) (repoOf "a" true) "artifacthub-repo.yml"
      (SetVerifiedPublisherFlag (logSvc ⟨"a"⟩ none) (repoOf "a" false)
        "artifacthub-repo.yml" []).world).ret = none :=
  ⟨by decide,
    second_pass_converges (logSvc ⟨"a"⟩ none) (repoOf "a" false) (repoOf "a" true)
      "artifacthub-repo.yml" [] (by decide) (by decide) (by decide) (by decide)⟩

/-- C7, as written, fails: with the same repository value `r` (flag false), a
record naming `r` and updates that succeed, each of two calls in a row issues
the update, two calls in total. -/
theorem same_value_twice_two_updates :
    (SetVerifiedPublisherFlag (logSvc ⟨"a"⟩ none) (repoOf "a" false)
      "artifacthub-repo.yml" []).trace =
      [Event.GetMetadata "artifacthub-repo.yml" ⟨"a"⟩ none,
        Event.SetVerifiedPublisher ⟨7⟩ "a" true none] ∧
    (SetVerifiedPublisherFlag (logSvc ⟨"a"⟩ none) (repoOf "a" false) "artifacthub-repo.yml"
      (SetVerifiedPublisherFlag (logSvc ⟨"a"⟩ none) (repoOf "a" false)
        "artifacthub-repo.yml" []).world).trace =
      [Event.GetMetadata "artifacthub-repo.yml" ⟨"a"⟩ none,
        Event.SetVerifiedPublisher ⟨7⟩ "a" true none] ∧
    (SetVerifiedPublisherFlag (logSvc ⟨"a"⟩ none) (repoOf "a" false) "artifacthub-repo.yml"
      (SetVerifiedPublisherFlag (logSvc ⟨"a"⟩ none) (repoOf "a" false)
        "artifacthub-repo.yml" []).world).world = [("a", true), ("a", true)] ∧
    ¬ ((setCalls (SetVerifiedPublisherFlag (logSvc ⟨"a"⟩ none) (repoOf "a" false)
          "artifacthub-repo.yml" []).trace).length +
        (setCalls (SetVerifiedPublisherFlag (logSvc ⟨"a"⟩ none) (repoOf "a" false)
          "artifacthub-repo.yml"
          (SetVerifiedPublisherFlag (logSvc ⟨"a"⟩ none) (repoOf "a" false)
            "artifacthub-repo.yml" []).world).trace).length ≤ 1) := by
  decide

/-- C7, amended: two calls in a row with the same `svc`, the same fetch result
and updates that succeed, the second being given the repository as re-read
after the first (same identity, flag as stored after the first call), issue at
most one `SetVerifiedPublisher` call in total, and none is issued by the second
call.  Given the very same repository value `r` instead, the second call issues
the calls of the first over again, with the same arguments. -/
theorem two_passes_at_most_one_update {σ : Type} (svc : Services σ) (r r' : Repository)
    (mdFile : String) (w : σ)
    (hsame : (svc.Rm.GetMetadata mdFile (SetVerifiedPublisherFlag svc r mdFile w).world).1
      = (svc.Rm.GetMetadata mdFile w).1)
    (hok : updatesSucceed (SetVerifiedPublisherFlag svc r mdFile w).trace = true)
    (hid : r'.RepositoryID = r.RepositoryID)
    (hvp : r'.VerifiedPublisher =
      flagAfter r.VerifiedPublisher r.RepositoryID (SetVerifiedPublisherFlag svc r mdFile w).trace) :
    (setCalls (SetVerifiedPublisherFlag svc r mdFile w).trace).length +
      (setCalls (SetVerifiedPublisherFlag svc r' mdFile
        (SetVerifiedPublisherFlag svc r mdFile w).world).trace).length ≤ 1 ∧
    setCalls (SetVerifiedPublisherFlag svc r' mdFile
      (SetVerifiedPublisherFlag svc r mdFile w).world).trace = [] ∧
    (setCalls (SetVerifiedPublisherFlag svc r mdFile
        (SetVerifiedPublisherFlag svc r mdFile w).world).trace).map (fun c => (c.1, c.2.1, c.2.2.1))
      = (setCalls (SetVerifiedPublisherFlag svc r mdFile w).trace).map
          (fun c => (c.1, c.2.1, c.2.2.1)) := by
  have h := reread_agrees svc r r' mdFile w _ hsame hok hid hvp
  have h2 : setCalls (SetVerifiedPublisherFlag svc r' mdFile
      (SetVerifiedPublisherFlag svc r mdFile w).world).trace = [] := by
    rw [run_of_agree svc r' mdFile _ h]
    simp [setCalls]
  refine ⟨?_, h2, ?_⟩
  · rw [h2]
    by_cases hc : computedFlag r (svc.Rm.GetMetadata mdFile w).1.1
        (svc.Rm.GetMetadata mdFile w).1.2 = r.VerifiedPublisher
    · rw [run_of_agree svc r mdFile w hc]
      simp [setCalls]
    · rw [run_of_differ svc r mdFile w hc]
      simp [setCalls]
  · by_cases hc : computedFlag r (svc.Rm.GetMetadata mdFile w).1.1
        (svc.Rm.GetMetadata mdFile w).1.2 = r.VerifiedPublisher
    · have hc' : computedFlag r
          (svc.Rm.GetMetadata mdFile (SetVerifiedPublisherFlag svc r mdFile w).world).1.1
          (svc.Rm.GetMetadata mdFile (SetVerifiedPublisherFlag svc r mdFile w).world).1.2
          = r.VerifiedPublisher := by rw [hsame]; exact hc
      rw [run_of_agree svc r mdFile _ hc', run_of_agree svc r mdFile w hc]
      simp [setCalls]
    · have hc' : computedFlag r
          (svc.Rm.GetMetadata mdFile (SetVerifiedPublisherFlag svc r mdFile w).world).1.1
          (svc.Rm.GetMetadata mdFile (SetVerifiedPublisherFlag svc r mdFile w).world).1.2
          ≠ r.VerifiedPublisher := by rw [hsame]; exact hc
      rw [run_of_differ svc r mdFile _ hc', eq_not_of_ne hc']
      rw [run_of_differ svc r mdFile w hc, eq_not_of_ne hc]
      simp [setCalls]

/-- C7 amended, exercised: the first pass flags the repository; the second,
given the re-read repository, issues nothing. -/
theorem two_passes_at_most_one_update_witness :
    setCalls (SetVerifiedPublisherFlag (logSvc ⟨"a"⟩ none) (repoOf "a" false)
      "artifacthub-repo.yml" []).trace = [(⟨7⟩, "a", true, none)] ∧
    setCalls (SetVerifiedPublisherFlag (logSvc ⟨"a"⟩ none) (repoOf "a" true) "artifacthub-repo.yml"
      (SetVerifiedPublisherFlag (logSvc ⟨"a"⟩ none) (repoOf "a" false)
        "artifacthub-repo.yml" []).world).trace = [] :=
  ⟨by decide,
    (two_passes_at_most_one_update (logSvc ⟨"a"⟩ none) (repoOf "a" false) (repoOf "a" true)
      "artifacthub-repo.yml" [] (by decide) (by decide) (by decide) (by decide)).2.1⟩

end Hub
